import Mathlib

/-!
Verification of the abstract neural-network layer contract of
`src/src/neural/layer.h` (class `ML::Layer`).

The header is an abstract interface: the numeric kernels (`apply`, `fprop`,
`bprop`), the persistence methods and the base-class member functions are
declared there but implemented in files (layer.cc and the concrete subtype
files) that are not part of the sources.  Following the header's doc
comments and the specification, the missing implementations are modelled
here explicitly; each such definition is marked `Modelled from the spec:`.

Floating-point values (both the single- and the double-precision variant of
every kernel) are idealized as exact rationals, so "equal within
floating-point tolerance" becomes exact equality of rationals.
-/

namespace LayerSpec

/-! ## Base-class data (translated from layer.h lines 29-68, 397-403) -/

/-- The concrete data members of the abstract base class `Layer`
(layer.h lines 398-399): a name and the fixed input/output widths. -/
structure LayerBase where
  name_ : String
  inputs_ : Nat
  outputs_ : Nat
deriving DecidableEq

/-- `size_t inputs() const { return inputs_; }` (layer.h line 65). -/
def LayerBase.inputs (l : LayerBase) : Nat := l.inputs_

/-- `size_t outputs() const { return outputs_; }` (layer.h line 66). -/
def LayerBase.outputs (l : LayerBase) : Nat := l.outputs_

/-- `virtual size_t max_width() const { return std::max(inputs_, outputs_); }`
(layer.h line 68): the base-class default implementation. -/
def LayerBase.max_width (l : LayerBase) : Nat := max l.inputs_ l.outputs_

/-! ## Concrete layer kernels

The concrete subtypes of `Layer` are not in the sources.  Modelled from the
spec: a dense (fully-connected) layer with a square transfer function, whose
`fprop` stores the pre-activation sums in the temporary space (the spec's
example of "intermediate values the matching `bprop` will need"), and an
identity layer that needs no temporary space at all. -/

/-- Dot product of two rational vectors. -/
def dot (xs ys : List ℚ) : ℚ := (List.zipWith (fun a b => a * b) xs ys).sum

/-- The square transfer function used by the modelled dense layer. -/
def sq (a : ℚ) : ℚ := a * a

/-- Modelled from the spec: the state of a dense concrete layer subtype
(absent from the sources): a weight matrix of `outputs` rows of `inputs`
entries each, and one bias per output. -/
structure Dense where
  name : String
  inputs : Nat
  outputs : Nat
  weights : List (List ℚ)
  bias : List ℚ
deriving DecidableEq

/-- Well-formedness of a dense layer: parameter shapes agree with the
declared widths (what `validate()` checks per the spec). -/
def Dense.wf (d : Dense) : Prop :=
  d.weights.length = d.outputs ∧
  (∀ r ∈ d.weights, r.length = d.inputs) ∧
  d.bias.length = d.outputs

instance (d : Dense) : Decidable d.wf := by
  unfold Dense.wf
  exact inferInstance

/-- Pre-activation sums of the dense layer: one `dot(row, x) + bias` per
output. -/
def Dense.act (d : Dense) (x : List ℚ) : List ℚ :=
  List.zipWith (fun row b => dot row x + b) d.weights d.bias

/-- Modelled from the spec: the dense layer's virtual `apply` kernel
(layer.h line 215), computing each output directly. -/
def Dense.applyK (d : Dense) (x : List ℚ) : List ℚ :=
  List.zipWith (fun row b => sq (dot row x + b)) d.weights d.bias

/-- Modelled from the spec: the dense layer's virtual `fprop` kernel
(layer.h lines 300-303).  It fills the temporary space with the
pre-activation sums and computes the outputs from them. -/
def Dense.fpropK (d : Dense) (x : List ℚ) : List ℚ × List ℚ :=
  (d.act x, (d.act x).map sq)

/-- Error terms at the pre-activations: dE/da = outputError * 2a, the
derivative of the square transfer function applied to the stored temp. -/
def Dense.delta (temp oerrs : List ℚ) : List ℚ :=
  List.zipWith (fun e t => 2 * e * t) oerrs temp

/-- Modelled from the spec: dE/dinput of the dense layer
(one entry per input). -/
def Dense.gradI (d : Dense) (temp oerrs : List ℚ) : List ℚ :=
  (List.range d.inputs).map
    (fun i => (List.zipWith (fun row dj => dj * row.getD i 0)
      d.weights (Dense.delta temp oerrs)).sum)

/-- Modelled from the spec: dE/dparameter of the dense layer, in the order
`add_parameters` declares the buffers (all weights row by row, then the
biases). -/
def Dense.gradP (x temp oerrs : List ℚ) : List ℚ :=
  ((Dense.delta temp oerrs).map (fun dj => x.map (fun xi => dj * xi))).flatten
    ++ Dense.delta temp oerrs

/-- Modelled from the spec: the closed world of concrete layer subtypes
used to interpret "for every layer". -/
inductive LayerObj where
  | dense (d : Dense)
  | ident (name : String) (width : Nat)
deriving DecidableEq

/-- Number of inputs of a concrete layer. -/
def LayerObj.inputs : LayerObj → Nat
  | .dense d => d.inputs
  | .ident _ w => w

/-- Number of outputs of a concrete layer. -/
def LayerObj.outputs : LayerObj → Nat
  | .dense d => d.outputs
  | .ident _ w => w

/-- `class_id()`: the stable string naming the concrete subtype
(layer.h line 63). -/
def LayerObj.class_id : LayerObj → String
  | .dense _ => "Dense"
  | .ident _ _ => "Identity"

/-- Well-formedness of a concrete layer. -/
def LayerObj.wf : LayerObj → Prop
  | .dense d => d.wf
  | .ident _ _ => True

instance (L : LayerObj) : Decidable L.wf := by
  cases L with
  | dense d => exact inferInstanceAs (Decidable d.wf)
  | ident n w => exact inferInstanceAs (Decidable True)

/-- `fprop_temporary_space_required()` of each concrete subtype
(layer.h line 275): the dense layer stores one pre-activation per output,
the identity layer needs none. -/
def LayerObj.fprop_temporary_space_required : LayerObj → Nat
  | .dense d => d.outputs
  | .ident _ _ => 0

/-- The raw `apply` kernel of each concrete subtype (layer.h line 215). -/
def LayerObj.applyK : LayerObj → List ℚ → List ℚ
  | .dense d, x => d.applyK x
  | .ident _ _, x => x

/-- The raw `fprop` kernel of each concrete subtype, returning the filled
temporary space and the outputs (layer.h lines 300-303). -/
def LayerObj.fpropK : LayerObj → List ℚ → List ℚ × List ℚ
  | .dense d, x => d.fpropK x
  | .ident _ _, x => ([], x)

/-- dE/dinput computed by `bprop` (layer.h lines 343-348), as a function of
the fprop inputs, outputs, temporary space and the output errors. -/
def LayerObj.gradI : LayerObj → List ℚ → List ℚ → List ℚ → List ℚ → List ℚ
  | .dense d, _, _, temp, oerrs => d.gradI temp oerrs
  | .ident _ _, _, _, _, oerrs => oerrs

/-- dE/dparameter computed by `bprop` (layer.h lines 349-352), ordered as
`add_parameters` orders the trainable buffers. -/
def LayerObj.gradP : LayerObj → List ℚ → List ℚ → List ℚ → List ℚ → List ℚ
  | .dense _, ins, _, temp, oerrs => Dense.gradP ins temp oerrs
  | .ident _ _, _, _, _, _ => []

/-! ## Checked entry points (apply / fprop / bprop)

The container-based `apply` overloads and the precondition discipline are
implemented in layer.cc, which is not in the sources. -/

/-- Modelled from the spec: the container-based `apply` adapter
(layer.h lines 196-203, implemented in the missing layer.cc).  A mismatched
input size is a precondition violation, modelled as `none`. -/
def LayerObj.apply (L : LayerObj) (x : List ℚ) : Option (List ℚ) :=
  if x.length = L.inputs then some (L.applyK x) else none

/-- Modelled from the spec: the `fprop` entry point (layer.h lines 300-309).
A temporary-space size that does not match
`fprop_temporary_space_required`, or a mismatched input size, is a
precondition violation (`none`); otherwise it returns the filled temporary
space and the outputs. -/
def LayerObj.fprop (L : LayerObj) (x : List ℚ) (temp_space_size : Nat) :
    Option (List ℚ × List ℚ) :=
  if x.length = L.inputs ∧ temp_space_size = L.fprop_temporary_space_required
  then some (L.fpropK x) else none

/-- Additive gradient accumulation: each parameter of the accumulator
receives `w * g` added to it (layer.h lines 349-355). -/
def accum (acc : List ℚ) (w : ℚ) (g : List ℚ) : List ℚ :=
  List.zipWith (fun a gi => a + w * gi) acc g

/-- Modelled from the spec: the `bprop` entry point (layer.h lines 363-369,
implementations absent from the sources).  It computes the input errors
only when the destination is non-null (`want_input_errors`), and adds
`example_weight * dE/dparameter` into the gradient accumulator, never
overwriting it. -/
def LayerObj.bprop (L : LayerObj) (ins outs temp oerrs : List ℚ)
    (want_input_errors : Bool) (acc : List ℚ) (example_weight : ℚ) :
    Option (List ℚ) × List ℚ :=
  ((if want_input_errors then some (L.gradI ins outs temp oerrs) else none),
   accum acc example_weight (L.gradP ins outs temp oerrs))

/-- Modelled from the spec: the base-class default of
`fprop_temporary_space_required` returns 0 when the subtype does not
override it (layer.h lines 269-275). -/
def default_fprop_temporary_space_required : Nat := 0

/-- Modelled from the spec: the base-class default `fprop` implementation
calls `apply` and assumes a temporary-space size of zero
(layer.h lines 277-303); a non-zero size is a precondition violation. -/
def default_fprop (applyK : List ℚ → List ℚ) (x : List ℚ)
    (temp_space_size : Nat) : Option (List ℚ × List ℚ) :=
  if temp_space_size = 0 then some ([], applyK x) else none

/-- Modelled from the spec: `equal_impl` of each concrete subtype
(layer.h line 91): semantic equivalence of two layers of the same type. -/
def LayerObj.equal_impl : LayerObj → LayerObj → Bool
  | .dense d1, .dense d2 => decide (d1 = d2)
  | .ident n1 w1, .ident n2 w2 => decide (n1 = n2) && decide (w1 = w2)
  | _, _ => false

/-- Modelled from the spec: `equal` checks that the types of the two
objects are the same and then calls `equal_impl` (layer.h lines 86-89,
implemented in the missing layer.cc). -/
def LayerObj.equal (a b : LayerObj) : Bool :=
  decide (a.class_id = b.class_id) && a.equal_impl b

/-! ## Binary persistence

The store is modelled as a list of primitive tokens; `serialize` writes the
subtype's state with no type information, `poly_serialize` prepends the
`class_id` tag, and `poly_reconstitute` dispatches on that tag alone
(layer.h lines 148-176, implementations absent from the sources). -/

/-- One primitive value of the binary store. -/
inductive Tok where
  | str (v : String)
  | nat (v : Nat)
  | rat (v : ℚ)
deriving DecidableEq

/-- Read one string token from the store. -/
def readStr : List Tok → Option (String × List Tok)
  | Tok.str v :: rest => some (v, rest)
  | _ => none

/-- Read one natural-number token from the store. -/
def readNat : List Tok → Option (Nat × List Tok)
  | Tok.nat v :: rest => some (v, rest)
  | _ => none

/-- Read exactly `n` rational tokens from the store; a truncated or
ill-formed store is a format error (`none`). -/
def readRats : Nat → List Tok → Option (List ℚ × List Tok)
  | 0, ts => some ([], ts)
  | n + 1, Tok.rat v :: ts =>
    match readRats n ts with
    | some (vs, ts2) => some (v :: vs, ts2)
    | none => none
  | _ + 1, _ => none

/-- Regroup a flat list into `o` rows of `i` entries each (the inverse of
flattening the weight matrix). -/
def chunkRows (i : Nat) : Nat → List ℚ → List (List ℚ)
  | 0, _ => []
  | o + 1, xs => xs.take i :: chunkRows i o (xs.drop i)

/-- Modelled from the spec: `serialize` of the dense subtype writes the
type-specific state (name, widths, flattened weights, biases) with no type
information (layer.h lines 148-150). -/
def Dense.serialize (d : Dense) : List Tok :=
  Tok.str d.name :: Tok.nat d.inputs :: Tok.nat d.outputs ::
    (d.weights.flatten.map Tok.rat ++ d.bias.map Tok.rat)

/-- Modelled from the spec: `reconstitute` of the dense subtype consumes
exactly what the matching `serialize` wrote, in the same order
(layer.h lines 152-153). -/
def Dense.reconstitute (ts : List Tok) : Option (Dense × List Tok) :=
  (readStr ts).bind fun p1 =>
  (readNat p1.2).bind fun p2 =>
  (readNat p2.2).bind fun p3 =>
  (readRats (p3.1 * p2.1) p3.2).bind fun p4 =>
  (readRats p3.1 p4.2).bind fun p5 =>
  some ({ name := p1.1, inputs := p2.1, outputs := p3.1,
          weights := chunkRows p2.1 p3.1 p4.1, bias := p5.1 }, p5.2)

/-- Modelled from the spec: `reconstitute` of the identity subtype. -/
def identReconstitute (ts : List Tok) : Option ((String × Nat) × List Tok) :=
  (readStr ts).bind fun p1 =>
  (readNat p1.2).bind fun p2 =>
  some ((p1.1, p2.1), p2.2)

/-- Modelled from the spec: the virtual `serialize` of each concrete
subtype, writing only the subtype's internal state. -/
def LayerObj.serialize : LayerObj → List Tok
  | .dense d => d.serialize
  | .ident n w => [Tok.str n, Tok.nat w]

/-- Modelled from the spec: the virtual `reconstitute` dispatched on a
receiver whose concrete type is already known (layer.h line 153). -/
def LayerObj.reconstitute : LayerObj → List Tok → Option (LayerObj × List Tok)
  | .dense _, ts =>
    (Dense.reconstitute ts).bind fun p => some (LayerObj.dense p.1, p.2)
  | .ident _ _, ts =>
    (identReconstitute ts).bind fun p =>
      some (LayerObj.ident p.1.1 p.1.2, p.2)

/-- Modelled from the spec: `poly_serialize` writes the `class_id` tag
followed by `serialize`'s output (layer.h lines 165-169). -/
def LayerObj.poly_serialize (L : LayerObj) : List Tok :=
  Tok.str L.class_id :: L.serialize

/-- Modelled from the spec: `poly_reconstitute` reads the tag, looks the
subtype up in the type registry and delegates to its `reconstitute`; an
unregistered tag is an error (layer.h lines 171-176). -/
def poly_reconstitute (ts : List Tok) : Option (LayerObj × List Tok) :=
  (readStr ts).bind fun p =>
  if p.1 = "Dense" then
    (Dense.reconstitute p.2).bind fun q => some (LayerObj.dense q.1, q.2)
  else if p.1 = "Identity" then
    (identReconstitute p.2).bind fun q =>
      some (LayerObj.ident q.1.1 q.1.2, q.2)
  else none

/-! ## Parameter view -/

/-- Modelled from the spec: `add_parameters` deposits every trainable
buffer the subtype owns into the given parameters object, in a fixed
reproducible order (layer.h line 122). -/
def LayerObj.add_parameters (L : LayerObj) (params : List (String × List ℚ)) :
    List (String × List ℚ) :=
  match L with
  | .dense d =>
    params ++ [(d.name ++ ".weights", d.weights.flatten),
               (d.name ++ ".bias", d.bias)]
  | .ident _ _ => params

/-- A layer together with its `parameters_` member, the Parameter View
(layer.h line 402). -/
structure LayerWithView where
  obj : LayerObj
  parameters_ : List (String × List ℚ)
deriving DecidableEq

/-- Modelled from the spec: `update_parameters` clears the current
parameters and calls `add_parameters` on them (layer.h lines 112-119,
implemented in the missing layer.cc). -/
def LayerWithView.update_parameters (l : LayerWithView) : LayerWithView :=
  { l with parameters_ := l.obj.add_parameters [] }

/-! ## Raw-buffer calling convention

The virtual `apply`/`bprop` kernels work on raw pointers into a flat
buffer, and the header requires them to work even when the regions alias
(layer.h lines 205-218 and 357-360). -/

/-- Read `n` elements of a flat buffer starting at offset `off`. -/
def readBuf (mem : List ℚ) (off n : Nat) : List ℚ := (mem.drop off).take n

/-- Overwrite the region of a flat buffer starting at offset `off` with
the given values. -/
def writeBuf (mem : List ℚ) (off : Nat) (vals : List ℚ) : List ℚ :=
  mem.take off ++ vals ++ mem.drop (off + vals.length)

/-- Modelled from the spec: the raw-buffer `apply` (layer.h lines 205-218).
The input region is copied into a temporary before the outputs are
written, as the header requires when input and output may be the same
array. -/
def LayerObj.applyRaw (L : LayerObj) (mem : List ℚ) (inOff outOff : Nat) :
    List ℚ :=
  writeBuf mem outOff (L.applyK (readBuf mem inOff L.inputs))

/-- Modelled from the spec: the raw-buffer `bprop` (layer.h lines 357-369).
The output-error region is snapshotted before the input errors are written
over it, as the header requires when the two regions alias; the gradient
accumulator is a separate object. -/
def LayerObj.bpropRaw (L : LayerObj) (ins outs temp : List ℚ)
    (mem : List ℚ) (outErrOff inErrOff : Nat) (acc : List ℚ) (w : ℚ) :
    List ℚ × List ℚ :=
  (writeBuf mem inErrOff
     (L.gradI ins outs temp (readBuf mem outErrOff L.outputs)),
   accum acc w (L.gradP ins outs temp (readBuf mem outErrOff L.outputs)))

/-! ## Parameter storage and copies

`make_copy`/`deep_copy` (layer.h lines 155-163) differ only in whether the
copy shares the underlying storage; a heap of parameter cells makes the
sharing explicit. -/

/-- The heap of parameter-storage cells; a layer instance refers to its
cell by index. -/
structure Heap where
  cells : List (List ℚ)

/-- Read a parameter cell. -/
def Heap.read (h : Heap) (id : Nat) : List ℚ := h.cells.getD id []

/-- Mutate a parameter cell in place. -/
def Heap.write (h : Heap) (id : Nat) (v : List ℚ) : Heap :=
  ⟨h.cells.set id v⟩

/-- Allocate a fresh parameter cell, returning the new heap and the fresh
cell's index. -/
def Heap.alloc (h : Heap) (v : List ℚ) : Heap × Nat :=
  (⟨h.cells ++ [v]⟩, h.cells.length)

/-- A polymorphic layer instance: its concrete-subtype value together with
a reference to its parameter storage cell. -/
structure LayerInst where
  obj : LayerObj
  pid : Nat

/-- Modelled from the spec: `deep_copy` returns an instance of the same
concrete type whose storage is a freshly allocated copy, not connected to
the original's (layer.h lines 162-163). -/
def LayerInst.deep_copy (l : LayerInst) (h : Heap) : Heap × LayerInst :=
  ((h.alloc (h.read l.pid)).1, { obj := l.obj, pid := (h.alloc (h.read l.pid)).2 })

/-- Modelled from the spec: `make_copy` returns an instance of the same
concrete type that keeps references to the nested owned objects, here the
parameter cell (layer.h lines 155-160). -/
def LayerInst.make_copy (l : LayerInst) (h : Heap) : Heap × LayerInst :=
  (h, { obj := l.obj, pid := l.pid })

/-- Equality of two layer instances under a heap: same concrete subtype
value and same parameter values (what `equal` observes). -/
def LayerInst.equalIn (h : Heap) (a b : LayerInst) : Prop :=
  a.obj = b.obj ∧ h.read a.pid = h.read b.pid

/-! ## Helper lemmas -/

/-- Accumulating two weighted gradients commutes: the order of the two
examples does not matter. -/
theorem accum_comm (w1 w2 : ℚ) (acc : List ℚ) :
    ∀ g1 g2 : List ℚ,
      accum (accum acc w1 g1) w2 g2 = accum (accum acc w2 g2) w1 g1 := by
  induction acc with
  | nil => intro g1 g2; cases g1 <;> cases g2 <;> simp [accum]
  | cons a acc ih =>
    intro g1 g2
    cases g1 with
    | nil => cases g2 <;> simp [accum]
    | cons b g1 =>
      cases g2 with
      | nil => simp [accum]
      | cons c g2 =>
        simp only [accum, List.zipWith_cons_cons, List.cons.injEq] at ih ⊢
        exact ⟨by ring, ih g1 g2⟩

/-- Accumulation is pointwise additive: entry `k` of the accumulator
receives `w * g[k]` added to it. -/
theorem accum_getD (w : ℚ) :
    ∀ (acc g : List ℚ) (k : Nat), k < acc.length → k < g.length →
      (accum acc w g).getD k 0 = acc.getD k 0 + w * g.getD k 0 := by
  intro acc
  induction acc with
  | nil => intro g k h1 _; simp at h1
  | cons a acc ih =>
    intro g k h1 h2
    cases g with
    | nil => simp at h2
    | cons b g =>
      cases k with
      | zero => simp [accum]
      | succ k =>
        simp only [accum, List.zipWith_cons_cons, List.getD_cons_succ] at ih ⊢
        exact ih g k (by simpa using h1) (by simpa using h2)

/-- The outputs computed by the raw fprop kernel coincide with the apply
kernel for every concrete layer. -/
theorem LayerObj.fpropK_snd (L : LayerObj) (x : List ℚ) :
    (L.fpropK x).2 = L.applyK x := by
  cases L with
  | dense d =>
    simp [LayerObj.fpropK, LayerObj.applyK, Dense.fpropK, Dense.applyK,
      Dense.act, List.map_zipWith]
  | ident n w => rfl

/-- A well-formed layer's apply kernel maps an `inputs`-sized input to an
`outputs`-sized output. -/
theorem LayerObj.applyK_length (L : LayerObj) (hL : L.wf) (x : List ℚ)
    (hx : x.length = L.inputs) : (L.applyK x).length = L.outputs := by
  cases L with
  | dense d =>
    obtain ⟨h1, _, h3⟩ := hL
    simp [LayerObj.applyK, Dense.applyK, List.length_zipWith,
      LayerObj.outputs, h1, h3]
  | ident n w =>
    simpa [LayerObj.applyK, LayerObj.outputs, LayerObj.inputs] using hx

/-- The raw fprop kernel fills exactly `fprop_temporary_space_required`
temporary elements. -/
theorem LayerObj.fpropK_fst_length (L : LayerObj) (hL : L.wf) (x : List ℚ) :
    (L.fpropK x).1.length = L.fprop_temporary_space_required := by
  cases L with
  | dense d =>
    obtain ⟨h1, _, h3⟩ := hL
    simp [LayerObj.fpropK, Dense.fpropK, Dense.act, List.length_zipWith,
      LayerObj.fprop_temporary_space_required, h1, h3]
  | ident n w => rfl

/-- A well-formed layer that declares zero temporary space has a raw fprop
kernel equal to apply with an empty temporary space. -/
theorem LayerObj.fpropK_temp_zero (L : LayerObj) (hL : L.wf)
    (h0 : L.fprop_temporary_space_required = 0) (x : List ℚ) :
    L.fpropK x = ([], L.applyK x) := by
  cases L with
  | dense d =>
    obtain ⟨h1, _, h3⟩ := hL
    have hw : d.weights = [] := List.length_eq_zero.mp (by rw [h1]; exact h0)
    have hb : d.bias = [] := List.length_eq_zero.mp (by rw [h3]; exact h0)
    simp [LayerObj.fpropK, LayerObj.applyK, Dense.fpropK, Dense.applyK,
      Dense.act, hw, hb]
  | ident n w => rfl

/-- The input-error vector computed by bprop has one entry per input. -/
theorem LayerObj.gradI_length (L : LayerObj) (hL : L.wf)
    (ins outs temp oerrs : List ℚ) (he : oerrs.length = L.outputs) :
    (L.gradI ins outs temp oerrs).length = L.inputs := by
  cases L with
  | dense d => simp [LayerObj.gradI, Dense.gradI, LayerObj.inputs]
  | ident n w =>
    simpa [LayerObj.gradI, LayerObj.inputs, LayerObj.outputs] using he

/-- Reading a region that lies inside the buffer yields the requested
number of elements. -/
theorem length_readBuf (mem : List ℚ) (off n : Nat) (h : off + n ≤ mem.length) :
    (readBuf mem off n).length = n := by
  rw [readBuf, List.length_take, List.length_drop]
  exact Nat.min_eq_left (by omega)

/-- Reading back the region just written returns exactly the written
values, for any offset inside the buffer. -/
theorem readBuf_writeBuf (mem vals : List ℚ) (off : Nat)
    (h : off ≤ mem.length) :
    readBuf (writeBuf mem off vals) off vals.length = vals := by
  have ht : (mem.take off).length = off := by
    rw [List.length_take]; exact Nat.min_eq_left h
  rw [readBuf, writeBuf, List.append_assoc, List.drop_left' ht, List.take_left]

/-- Appending cells to a heap does not change what an existing index
reads. -/
theorem getD_append_lt {α : Type} (l1 l2 : List α) (d : α) :
    ∀ n, n < l1.length → (l1 ++ l2).getD n d = l1.getD n d := by
  induction l1 with
  | nil => intro n h; simp at h
  | cons a l1 ih =>
    intro n h
    cases n with
    | zero => rfl
    | succ n =>
      simp only [List.cons_append, List.getD_cons_succ]
      exact ih n (by simpa using h)

/-- Reading the freshly appended cell yields the appended value. -/
theorem getD_append_self {α : Type} (l1 : List α) (v d : α) :
    (l1 ++ [v]).getD l1.length d = v := by
  induction l1 with
  | nil => rfl
  | cons a l1 ih =>
    simp only [List.cons_append, List.length_cons, List.getD_cons_succ]
    exact ih

/-- Overwriting one cell does not change what a different index reads. -/
theorem getD_set_ne {α : Type} (v d : α) :
    ∀ (l : List α) (i j : Nat), i ≠ j → (l.set i v).getD j d = l.getD j d := by
  intro l
  induction l with
  | nil => intro i j _; rfl
  | cons a l ih =>
    intro i j hij
    cases i with
    | zero =>
      cases j with
      | zero => exact absurd rfl hij
      | succ j => rfl
    | succ i =>
      cases j with
      | zero => rfl
      | succ j =>
        simp only [List.set_cons_succ, List.getD_cons_succ]
        exact ih i j (by omega)

/-- Reading a fixed number of rational tokens inverts writing them. -/
theorem readRats_append (xs : List ℚ) (rest : List Tok) :
    readRats xs.length (xs.map Tok.rat ++ rest) = some (xs, rest) := by
  induction xs with
  | nil => rfl
  | cons a xs ih => simp [readRats, ih]

/-- A matrix of `o` rows of `i` entries each flattens to `o * i` entries. -/
theorem flatten_length_mul (i : Nat) :
    ∀ w : List (List ℚ), (∀ r ∈ w, r.length = i) →
      w.flatten.length = w.length * i := by
  intro w
  induction w with
  | nil => intro _; simp
  | cons r w ih =>
    intro h
    simp only [List.flatten_cons, List.length_append, List.length_cons]
    rw [h r (by simp), ih (fun s hs => h s (List.mem_cons_of_mem r hs))]
    ring

/-- Regrouping the flattened weight matrix into its rows recovers the
matrix. -/
theorem chunkRows_flatten (i : Nat) :
    ∀ w : List (List ℚ), (∀ r ∈ w, r.length = i) →
      chunkRows i w.length w.flatten = w := by
  intro w
  induction w with
  | nil => intro _; rfl
  | cons r w ih =>
    intro h
    have hr : r.length = i := h r (by simp)
    have h1 : (r ++ w.flatten).take i = r := by
      rw [← hr]; exact List.take_left r w.flatten
    have h2 : (r ++ w.flatten).drop i = w.flatten := by
      rw [← hr]; exact List.drop_left r w.flatten
    simp only [List.length_cons, chunkRows, List.flatten_cons, h1, h2]
    rw [ih (fun s hs => h s (List.mem_cons_of_mem r hs))]

/-- The dense subtype's reconstitute consumes exactly what its serialize
wrote and recovers the same layer. -/
theorem Dense.reconstitute_inverts_serialize (d : Dense) (hwf : d.wf)
    (rest : List Tok) :
    Dense.reconstitute (d.serialize ++ rest) = some (d, rest) := by
  obtain ⟨h1, h2, h3⟩ := hwf
  have hjoin : d.weights.flatten.length = d.outputs * d.inputs := by
    rw [flatten_length_mul d.inputs d.weights h2, h1]
  rw [Dense.serialize, Dense.reconstitute]
  simp only [List.cons_append, List.append_assoc, readStr, readNat,
    Option.some_bind]
  rw [← hjoin, readRats_append]
  simp only [Option.some_bind]
  rw [← h3, readRats_append]
  simp only [Option.some_bind, Option.some.injEq, Prod.mk.injEq]
  refine ⟨?_, trivial⟩
  have hch : chunkRows d.inputs d.bias.length d.weights.flatten = d.weights := by
    rw [h3, ← h1]; exact chunkRows_flatten d.inputs d.weights h2
  rw [hch, h3]

/-- Every concrete subtype's reconstitute inverts its serialize. -/
theorem LayerObj.reconstitute_serialize (L : LayerObj) (hL : L.wf)
    (rest : List Tok) : L.reconstitute (L.serialize ++ rest) = some (L, rest) := by
  cases L with
  | dense d =>
    simp [LayerObj.reconstitute, LayerObj.serialize,
      Dense.reconstitute_inverts_serialize d hL rest]
  | ident n w => rfl

/-- The registry reconstructs the correct concrete subtype from the
embedded tag alone. -/
theorem poly_reconstitute_poly_serialize (L : LayerObj) (hL : L.wf)
    (rest : List Tok) :
    poly_reconstitute (L.poly_serialize ++ rest) = some (L, rest) := by
  cases L with
  | dense d =>
    simp [poly_reconstitute, LayerObj.poly_serialize, LayerObj.class_id,
      LayerObj.serialize, readStr, Dense.reconstitute_inverts_serialize d hL rest]
  | ident n w =>
    simp [poly_reconstitute, LayerObj.poly_serialize, LayerObj.class_id,
      LayerObj.serialize, readStr, readNat, identReconstitute]

/-- Every layer is `equal` to itself: same class id, same state. -/
theorem LayerObj.equal_self (L : LayerObj) : L.equal L = true := by
  cases L <;> simp [LayerObj.equal, LayerObj.equal_impl]

/-! ## Concrete instances used by the witnesses -/

/-- The spec's concrete scenario: a dense layer with `inputs = 3`,
`outputs = 2` and zero-filled parameters. -/
def dExample : Dense :=
  { name := "l", inputs := 3, outputs := 2,
    weights := [[0, 0, 0], [0, 0, 0]], bias := [0, 0] }

/-- The example dense layer viewed as a polymorphic layer. -/
def LExample : LayerObj := LayerObj.dense dExample

/-- An identity layer of width 2: it declares zero temporary space. -/
def identExample : LayerObj := LayerObj.ident "id" 2

/-- The spec scenario's input vector. -/
def xExample : List ℚ := [1, 2, 3]

/-! ## Claim theorems -/

/-- C1: for every layer and every input of `inputs()` elements, `fprop`
called with a correctly sized temporary space writes to its outputs
exactly the values that `apply` produces for the same input (both
precisions idealized as exact rationals), and fills exactly
`fprop_temporary_space_required` temporary elements. -/
theorem apply_fprop_equivalence (L : LayerObj) (hL : L.wf) (x : List ℚ)
    (hx : x.length = L.inputs) :
    L.fprop x L.fprop_temporary_space_required = some (L.fpropK x) ∧
    (L.fpropK x).2 = L.applyK x ∧
    (L.fpropK x).1.length = L.fprop_temporary_space_required ∧
    L.apply x = some (L.applyK x) := by
  refine ⟨?_, L.fpropK_snd x, L.fpropK_fst_length hL x, ?_⟩
  · simp [LayerObj.fprop, hx]
  · simp [LayerObj.apply, hx]

/-- Witness for C1 at the spec's concrete dense layer and input. -/
theorem apply_fprop_equivalence_witness :
    LExample.wf ∧ xExample.length = LExample.inputs ∧
    (LExample.fprop xExample LExample.fprop_temporary_space_required
        = some (LExample.fpropK xExample) ∧
     (LExample.fpropK xExample).2 = LExample.applyK xExample ∧
     (LExample.fpropK xExample).1.length
        = LExample.fprop_temporary_space_required ∧
     LExample.apply xExample = some (LExample.applyK xExample)) :=
  ⟨by decide, by decide,
   apply_fprop_equivalence LExample (by decide) xExample (by decide)⟩

/-- C2: for every layer, gradient accumulation in `bprop` is additive
(entry `k` of the accumulator receives `example_weight * dE/dparam[k]`
added, never overwritten) and order-commutative over two examples. -/
theorem bprop_accumulation_commutative (L : LayerObj)
    (i1 o1 t1 e1 i2 o2 t2 e2 acc : List ℚ) (w1 w2 : ℚ)
    (b1 b2 b3 b4 b5 : Bool) (k : Nat)
    (hk1 : k < acc.length) (hk2 : k < (L.gradP i1 o1 t1 e1).length) :
    (L.bprop i2 o2 t2 e2 b2 ((L.bprop i1 o1 t1 e1 b1 acc w1).2) w2).2
      = (L.bprop i1 o1 t1 e1 b3 ((L.bprop i2 o2 t2 e2 b4 acc w2).2) w1).2 ∧
    ((L.bprop i1 o1 t1 e1 b5 acc w1).2).getD k 0
      = acc.getD k 0 + w1 * (L.gradP i1 o1 t1 e1).getD k 0 := by
  constructor
  · simp only [LayerObj.bprop]
    exact accum_comm w1 w2 acc _ _
  · simp only [LayerObj.bprop]
    exact accum_getD w1 acc _ k hk1 hk2

/-- Witness for C2 at the concrete dense layer, two distinct examples and
an eight-parameter accumulator. -/
theorem bprop_accumulation_commutative_witness :
    (0 : Nat) < ([0, 0, 0, 0, 0, 0, 0, 0] : List ℚ).length ∧
    (0 : Nat) < (LExample.gradP [1, 2, 3] [1, 1] [1, 1] [1, 1]).length ∧
    ((LExample.bprop [3, 2, 1] [4, 4] [2, 2] [1, 0] false
        ((LExample.bprop [1, 2, 3] [1, 1] [1, 1] [1, 1] true
          [0, 0, 0, 0, 0, 0, 0, 0] 2).2) 3).2
      = (LExample.bprop [1, 2, 3] [1, 1] [1, 1] [1, 1] true
        ((LExample.bprop [3, 2, 1] [4, 4] [2, 2] [1, 0] false
          [0, 0, 0, 0, 0, 0, 0, 0] 3).2) 2).2 ∧
     ((LExample.bprop [1, 2, 3] [1, 1] [1, 1] [1, 1] true
        [0, 0, 0, 0, 0, 0, 0, 0] 2).2).getD 0 0
      = ([0, 0, 0, 0, 0, 0, 0, 0] : List ℚ).getD 0 0
          + 2 * (LExample.gradP [1, 2, 3] [1, 1] [1, 1] [1, 1]).getD 0 0) :=
  ⟨by decide, by decide,
   bprop_accumulation_commutative LExample [1, 2, 3] [1, 1] [1, 1] [1, 1]
     [3, 2, 1] [4, 4] [2, 2] [1, 0] [0, 0, 0, 0, 0, 0, 0, 0] 2 3
     true false false true true 0 (by decide) (by decide)⟩

/-- C3: for every well-formed layer, reconstituting from the tokens written
by `serialize` yields an equal layer, and `poly_reconstitute` applied to
the output of `poly_serialize` reconstructs the same concrete subtype from
the embedded type tag alone. -/
theorem serialize_roundtrip (L : LayerObj) (hL : L.wf) (rest : List Tok) :
    L.reconstitute (L.serialize ++ rest) = some (L, rest) ∧
    poly_reconstitute (L.poly_serialize ++ rest) = some (L, rest) ∧
    L.equal L = true :=
  ⟨L.reconstitute_serialize hL rest,
   poly_reconstitute_poly_serialize L hL rest,
   L.equal_self⟩

/-- Witness for C3 at the concrete dense layer. -/
theorem serialize_roundtrip_witness :
    LExample.wf ∧
    (LExample.reconstitute (LExample.serialize ++ []) = some (LExample, []) ∧
     poly_reconstitute (LExample.poly_serialize ++ []) = some (LExample, []) ∧
     LExample.equal LExample = true) :=
  ⟨by decide, serialize_roundtrip LExample (by decide) []⟩

/-- C4: for every layer, the raw-buffer apply yields the same output
values whether the output region aliases the input region or is disjoint
from it, and the raw-buffer bprop yields the same input errors and the
same accumulator whether the input-error region aliases the output-error
region or not. -/
theorem aliasing_safety (L : LayerObj) (hL : L.wf) (mem : List ℚ)
    (inOff outOff : Nat)
    (hin : inOff + L.inputs ≤ mem.length)
    (hout : outOff + L.outputs ≤ mem.length)
    (ins outs temp acc : List ℚ) (eOff iOff iOff2 : Nat) (w : ℚ)
    (he : eOff + L.outputs ≤ mem.length) (hi : iOff ≤ mem.length) :
    readBuf (L.applyRaw mem inOff outOff) outOff L.outputs
        = L.applyK (readBuf mem inOff L.inputs) ∧
    readBuf (L.applyRaw mem inOff inOff) inOff L.outputs
        = readBuf (L.applyRaw mem inOff outOff) outOff L.outputs ∧
    readBuf ((L.bpropRaw ins outs temp mem eOff iOff acc w).1) iOff L.inputs
        = L.gradI ins outs temp (readBuf mem eOff L.outputs) ∧
    (L.bpropRaw ins outs temp mem eOff iOff acc w).2
        = (L.bpropRaw ins outs temp mem eOff iOff2 acc w).2 := by
  have hx : (readBuf mem inOff L.inputs).length = L.inputs :=
    length_readBuf mem inOff L.inputs hin
  have hlen : (L.applyK (readBuf mem inOff L.inputs)).length = L.outputs :=
    L.applyK_length hL _ hx
  have main : ∀ o, o ≤ mem.length →
      readBuf (L.applyRaw mem inOff o) o L.outputs
        = L.applyK (readBuf mem inOff L.inputs) := by
    intro o ho
    rw [LayerObj.applyRaw, ← hlen]
    exact readBuf_writeBuf mem _ o ho
  have h1 := main outOff (by omega)
  have h2 := main inOff (by omega)
  refine ⟨h1, by rw [h1, h2], ?_, rfl⟩
  have he2 : (readBuf mem eOff L.outputs).length = L.outputs :=
    length_readBuf mem eOff L.outputs he
  have hgi : (L.gradI ins outs temp (readBuf mem eOff L.outputs)).length
      = L.inputs := L.gradI_length hL ins outs temp _ he2
  rw [LayerObj.bpropRaw, ← hgi]
  exact readBuf_writeBuf mem _ iOff hi

/-- Witness for C4 at the concrete dense layer inside a five-element
buffer, with the input-error region aliasing the output-error region. -/
theorem aliasing_safety_witness :
    LExample.wf ∧
    (0 : Nat) + LExample.inputs ≤ ([1, 2, 3, 4, 5] : List ℚ).length ∧
    (0 : Nat) + LExample.outputs ≤ ([1, 2, 3, 4, 5] : List ℚ).length ∧
    (readBuf (LExample.applyRaw [1, 2, 3, 4, 5] 0 0) 0 LExample.outputs
        = LExample.applyK (readBuf [1, 2, 3, 4, 5] 0 LExample.inputs) ∧
     readBuf (LExample.applyRaw [1, 2, 3, 4, 5] 0 0) 0 LExample.outputs
        = readBuf (LExample.applyRaw [1, 2, 3, 4, 5] 0 0) 0 LExample.outputs ∧
     readBuf ((LExample.bpropRaw [1, 2, 3] [1, 1] [1, 1] [1, 2, 3, 4, 5]
          0 0 [0, 0, 0, 0, 0, 0, 0, 0] 1).1) 0 LExample.inputs
        = LExample.gradI [1, 2, 3] [1, 1] [1, 1]
            (readBuf [1, 2, 3, 4, 5] 0 LExample.outputs) ∧
     (LExample.bpropRaw [1, 2, 3] [1, 1] [1, 1] [1, 2, 3, 4, 5]
          0 0 [0, 0, 0, 0, 0, 0, 0, 0] 1).2
        = (LExample.bpropRaw [1, 2, 3] [1, 1] [1, 1] [1, 2, 3, 4, 5]
          0 2 [0, 0, 0, 0, 0, 0, 0, 0] 1).2) :=
  ⟨by decide, by decide, by decide,
   aliasing_safety LExample (by decide) [1, 2, 3, 4, 5] 0 0 (by decide)
     (by decide) [1, 2, 3] [1, 1] [1, 1] [0, 0, 0, 0, 0, 0, 0, 0] 0 0 2 1
     (by decide) (by decide)⟩

/-- C5: for every layer, `bprop` with a null input-error destination is
valid: it computes no input errors and still performs exactly the same
gradient accumulation as the call with a non-null destination. -/
theorem bprop_null_input_errors (L : LayerObj)
    (ins outs temp oerrs acc : List ℚ) (w : ℚ) :
    (L.bprop ins outs temp oerrs false acc w).1 = none ∧
    (L.bprop ins outs temp oerrs false acc w).2
      = (L.bprop ins outs temp oerrs true acc w).2 :=
  ⟨rfl, rfl⟩

/-- C6: the base class's default `fprop_temporary_space_required` returns
0, its default `fprop` with a zero-length temporary buffer returns exactly
the outputs of `apply` (and rejects any other size), and a layer declaring
zero temporary space produces via `fprop` exactly the outputs of `apply`. -/
theorem zero_temp_space_default (L : LayerObj) (hL : L.wf)
    (h0 : L.fprop_temporary_space_required = 0) (x : List ℚ)
    (hx : x.length = L.inputs) :
    default_fprop_temporary_space_required = 0 ∧
    default_fprop L.applyK x 0 = some ([], L.applyK x) ∧
    (∀ n, n ≠ 0 → default_fprop L.applyK x n = none) ∧
    L.fprop x 0 = some ([], L.applyK x) := by
  refine ⟨rfl, by simp [default_fprop], ?_, ?_⟩
  · intro n hn
    simp [default_fprop, hn]
  · simp [LayerObj.fprop, hx, h0, L.fpropK_temp_zero hL h0 x]

/-- Witness for C6 at the identity layer of width 2. -/
theorem zero_temp_space_default_witness :
    identExample.wf ∧
    identExample.fprop_temporary_space_required = 0 ∧
    ([5, 7] : List ℚ).length = identExample.inputs ∧
    (default_fprop_temporary_space_required = 0 ∧
     default_fprop identExample.applyK [5, 7] 0
        = some ([], identExample.applyK [5, 7]) ∧
     (∀ n, n ≠ 0 → default_fprop identExample.applyK [5, 7] n = none) ∧
     identExample.fprop [5, 7] 0 = some ([], identExample.applyK [5, 7])) :=
  ⟨by decide, by decide, by decide,
   zero_temp_space_default identExample (by decide) (by decide) [5, 7]
     (by decide)⟩

/-- C7: for every well-formed layer, `apply` and `fprop` on an input of
exactly `inputs()` elements produce exactly `outputs()` elements, and a
mismatched input size or temporary-space size is a precondition violation
(`none`) rather than a partial completion. -/
theorem shape_contract (L : LayerObj) (hL : L.wf) (x : List ℚ) (tss : Nat) :
    (x.length = L.inputs →
       L.apply x = some (L.applyK x) ∧ (L.applyK x).length = L.outputs ∧
       (tss = L.fprop_temporary_space_required →
          L.fprop x tss = some (L.fpropK x) ∧
          (L.fpropK x).2.length = L.outputs)) ∧
    (x.length ≠ L.inputs → L.apply x = none ∧ L.fprop x tss = none) ∧
    (tss ≠ L.fprop_temporary_space_required → L.fprop x tss = none) := by
  refine ⟨?_, ?_, ?_⟩
  · intro hx
    refine ⟨by simp [LayerObj.apply, hx], L.applyK_length hL x hx, ?_⟩
    intro ht
    refine ⟨by simp [LayerObj.fprop, hx, ht], ?_⟩
    rw [L.fpropK_snd]
    exact L.applyK_length hL x hx
  · intro hx
    exact ⟨by simp [LayerObj.apply, hx], by simp [LayerObj.fprop, hx]⟩
  · intro ht
    simp [LayerObj.fprop, ht]

/-- Witness for C7 at the concrete dense layer with the correctly sized
temporary space. -/
theorem shape_contract_witness :
    LExample.wf ∧
    ((xExample.length = LExample.inputs →
       LExample.apply xExample = some (LExample.applyK xExample) ∧
       (LExample.applyK xExample).length = LExample.outputs ∧
       (2 = LExample.fprop_temporary_space_required →
          LExample.fprop xExample 2 = some (LExample.fpropK xExample) ∧
          (LExample.fpropK xExample).2.length = LExample.outputs)) ∧
     (xExample.length ≠ LExample.inputs →
       LExample.apply xExample = none ∧ LExample.fprop xExample 2 = none) ∧
     (2 ≠ LExample.fprop_temporary_space_required →
       LExample.fprop xExample 2 = none)) :=
  ⟨by decide, shape_contract LExample (by decide) xExample 2⟩

/-- C8: `update_parameters` clears the Parameter View and repopulates it
from the subtype's `add_parameters`, so calling it twice leaves the view
in the same state as calling it once, for every layer state. -/
theorem update_parameters_idempotent (l : LayerWithView) :
    l.update_parameters.update_parameters = l.update_parameters ∧
    l.update_parameters.parameters_ = l.obj.add_parameters [] :=
  ⟨rfl, rfl⟩

/-- C9: `deep_copy` returns an independent instance of the same concrete
type, `equal` to the original immediately after copying; mutating the
copy's parameter storage never changes the original's parameters; and
`make_copy` is also `equal` to the original while sharing storage. -/
theorem deep_copy_independence (h : Heap) (l : LayerInst)
    (hv : l.pid < h.cells.length) :
    ((l.deep_copy h).2).obj = l.obj ∧
    LayerInst.equalIn (l.deep_copy h).1 l (l.deep_copy h).2 ∧
    (∀ v, (((l.deep_copy h).1).write ((l.deep_copy h).2).pid v).read l.pid
        = ((l.deep_copy h).1).read l.pid) ∧
    LayerInst.equalIn h l (l.make_copy h).2 := by
  have hold : ((l.deep_copy h).1).read l.pid = h.read l.pid := by
    simp only [LayerInst.deep_copy, Heap.alloc, Heap.read]
    exact getD_append_lt h.cells [h.read l.pid] [] l.pid hv
  have hnew : ((l.deep_copy h).1).read ((l.deep_copy h).2).pid
      = h.read l.pid := by
    simp only [LayerInst.deep_copy, Heap.alloc, Heap.read]
    exact getD_append_self h.cells (h.read l.pid) []
  refine ⟨rfl, ⟨rfl, by rw [hold, hnew]⟩, ?_, rfl, rfl⟩
  intro v
  simp only [LayerInst.deep_copy, Heap.alloc, Heap.read, Heap.write]
  exact getD_set_ne v [] (h.cells ++ [h.read l.pid]) h.cells.length l.pid
    (by omega)

/-- Witness for C9 on a one-cell heap holding the original's parameters. -/
theorem deep_copy_independence_witness :
    (0 : Nat) < (Heap.mk [[1, 2]]).cells.length ∧
    (((LayerInst.mk identExample 0).deep_copy (Heap.mk [[1, 2]])).2.obj
        = (LayerInst.mk identExample 0).obj ∧
     LayerInst.equalIn
        ((LayerInst.mk identExample 0).deep_copy (Heap.mk [[1, 2]])).1
        (LayerInst.mk identExample 0)
        ((LayerInst.mk identExample 0).deep_copy (Heap.mk [[1, 2]])).2 ∧
     (∀ v, ((((LayerInst.mk identExample 0).deep_copy (Heap.mk [[1, 2]])).1).write
          (((LayerInst.mk identExample 0).deep_copy (Heap.mk [[1, 2]])).2).pid
          v).read 0
        = (((LayerInst.mk identExample 0).deep_copy (Heap.mk [[1, 2]])).1).read 0) ∧
     LayerInst.equalIn (Heap.mk [[1, 2]]) (LayerInst.mk identExample 0)
        ((LayerInst.mk identExample 0).make_copy (Heap.mk [[1, 2]])).2) :=
  ⟨by decide,
   deep_copy_independence (Heap.mk [[1, 2]]) (LayerInst.mk identExample 0)
     (by decide)⟩

/-- C10: for every layer whose subtype does not override `max_width`, the
base-class `max_width` returns the maximum of `inputs()` and
`outputs()`. -/
theorem max_width_default (l : LayerBase) :
    l.max_width = max l.inputs l.outputs :=
  rfl

end LayerSpec
